import Mathlib

/-!
Verification development for the Termos47/info_sender repository.

The repository contains two variants of an RSS-to-Telegram auto-poster:
`src/main.py` (modelled in namespace `MainPy`) and
`src/info_sender/mainn.py` (modelled in namespace `MainnPy`).
Each Lean definition below is a shallow embedding of the corresponding
Python function; external effects (feed fetching, the Telegram sends,
the YandexGPT call, JSON parsing) are passed in as explicit oracles of
`Except`/`Option` type, so that one run of a pure Lean function
corresponds to one run of the Python code under a fixed outcome of
those external calls.
-/

namespace InfoSender

/-- Python truthiness of an optional string: `None` and `""` are falsy. -/
def pyTruthy : Option String → Bool
  | none => false
  | some s => s ≠ ""

/-- Outcome classifier for an external call modelled as `Except`. -/
def isErr {α : Type} : Except Unit α → Bool
  | .error _ => true
  | .ok _ => false

/-- Numeric value of a digit string, as built by Python `int`. -/
def digitsVal (l : List Char) : Int :=
  l.foldl (fun a c => a * 10 + Int.ofNat (c.toNat - ('0').toNat)) 0

/-- Model of Python `int(s)` on a string: optional surrounding whitespace,
an optional sign, then at least one decimal digit; anything else raises
`ValueError`, modelled as `none`. -/
def pyInt (s : String) : Option Int :=
  let cs := ((s.toList.dropWhile Char.isWhitespace).reverse.dropWhile
      Char.isWhitespace).reverse
  match cs with
  | [] => none
  | c :: rest =>
    let p : Int × List Char :=
      if c = '-' then (-1, rest) else if c = '+' then (1, rest) else (1, c :: rest)
    if p.2 ≠ [] ∧ p.2.all Char.isDigit then some (p.1 * digitsVal p.2) else none

/-- A persisted snapshot of the dedup store (`sent_news.txt` as a list of
lines); `none` means the file does not exist. -/
structure FileSys where
  sentFile : Option (List String)
deriving Repr, DecidableEq

namespace MainPy

/-- One item of `feed.entries` as consumed by `get_news` in `src/main.py`.
Optional fields model `hasattr` checks; `published` is the parsed
`published_parsed` timestamp in seconds (`none` covers both a missing
attribute and a `datetime` conversion error, the two skip paths of the
source). `media` and `enclosures` are `(type, url)` pairs. -/
structure FeedEntry where
  title : Option String
  link : Option String
  description : Option String
  published : Option Int
  media : List (String × String)
  enclosures : List (String × String)
deriving Repr, DecidableEq

/-- The `news_item` dict built by `get_news` (`source` field omitted:
no claim mentions it). -/
structure NewsItem where
  title : String
  link : String
  summary : String
  image : Option String
deriving Repr, DecidableEq

/-- `is_image_url` from `src/main.py`. -/
def isImageUrl (url : String) : Bool :=
  if url = "" then false
  else [".jpg", ".jpeg", ".png", ".gif", ".webp"].any
    (fun ext => url.toLower.endsWith ext)

/-- First element whose `type` starts with `image`, as in the
`media_content` / `enclosures` loops of `get_news`. -/
def firstTyped (l : List (String × String)) : Option String :=
  (l.find? (fun p => p.1.startsWith ("image"))).map (fun p => p.2)

/-- Image extraction of `get_news`: try `media_content`, and if the
result is falsy try `enclosures`. -/
def extractImage (media enclosures : List (String × String)) : Option String :=
  let m := firstTyped media
  if pyTruthy m then m
  else
    match firstTyped enclosures with
    | some h => some h
    | none => m

/-- The per-entry body of `get_news`: freshness filter then construction
of the `news_item` dict. `cleanHtml` stands for the pure regex helper
`clean_html`; `now` is the current time in seconds. Returns `none` when
the entry is skipped. -/
def processEntry (cleanHtml : String → String) (now : Int) (e : FeedEntry) :
    Option NewsItem :=
  match e.published with
  | none => none
  | some t =>
    if Int.fdiv (now - t) 86400 > 1 then none
    else
      let img := extractImage e.media e.enclosures
      some
        { title := match e.title with
            | some s => cleanHtml s
            | none => "Без названия"
          link := e.link.getD ("")
          summary := match e.description with
            | some s => (cleanHtml s).take 200 ++ "..."
            | none => ""
          image := match img with
            | some u => if u ≠ "" ∧ ¬ isImageUrl u then none else some u
            | none => none }

/-- All news items produced from one feed. -/
def processFeedMain (cleanHtml : String → String) (now : Int)
    (es : List FeedEntry) : List NewsItem :=
  es.filterMap (processEntry cleanHtml now)

/-- Result of one run of `get_news`: collected items, the number of
`stats[errors]` increments performed there, and the list of source URLs
for which `feedparser.parse` was actually invoked. -/
structure FetchCycle where
  news : List NewsItem
  errors : Nat
  attempted : List String
deriving Repr, DecidableEq

/-- `get_news` from `src/main.py`: skip blank URLs, fetch each remaining
URL (the whole per-URL `try` block is the oracle `fetch`; an exception
anywhere in it is `.error`), collect processed entries, count one error
per failing source. -/
def getNews (cleanHtml : String → String) (now : Int)
    (fetch : String → Except Unit (List FeedEntry)) :
    List String → FetchCycle
  | [] => ⟨[], 0, []⟩
  | u :: rest =>
    let r := getNews cleanHtml now fetch rest
    if u.trim = "" then r
    else
      match fetch u.trim with
      | .ok es => ⟨processFeedMain cleanHtml now es ++ r.news, r.errors, u.trim :: r.attempted⟩
      | .error _ => ⟨r.news, r.errors + 1, u.trim :: r.attempted⟩

/-- The external calls `send_news` makes, in order. -/
inductive SendEvent where
  | head
  | photo
  | text
deriving Repr, DecidableEq

/-- Observable outcome of one `send_news` call. -/
structure SendResult where
  success : Bool
  postsInc : Nat
  errorsInc : Nat
  message : String
  trace : List SendEvent
deriving Repr, DecidableEq

/-- The message formatting at the top of `send_news`. -/
def buildMessage (item : NewsItem) : String :=
  let title := if item.title.length > 200 then item.title.take 200 ++ "..." else item.title
  let summary := if item.summary ≠ "" then item.summary.take 300 else ""
  "<b>" ++ title ++ "</b>\n\n" ++ summary ++ "\n\n🔗 " ++ item.link

/-- The text-only tail of `send_news`: `bot.send_message` succeeds
(`posts_sent += 1`, return `True`) or raises (outer `except`:
`errors += 1`, return `False`). -/
def textSend (msg : String) (pre : List SendEvent) (textRes : Except Unit Unit) :
    SendResult :=
  match textRes with
  | .ok _ => ⟨true, 1, 0, msg, pre ++ [.text]⟩
  | .error _ => ⟨false, 0, 1, msg, pre ++ [.text]⟩

/-- `send_news` from `src/main.py`. With a truthy image: `requests.head`
(oracle `headRes`: status code or exception); on status 200 the photo
send is attempted (oracle `photoRes`); a photo-path exception is caught
and the code falls through to the text send, as does a non-200 status
or a `head` exception. Without an image the text send runs directly. -/
def sendNews (item : NewsItem) (headRes : Except Unit Int)
    (photoRes textRes : Except Unit Unit) : SendResult :=
  let msg := buildMessage item
  if pyTruthy item.image then
    match headRes with
    | .ok code =>
      if code = 200 then
        match photoRes with
        | .ok _ => ⟨true, 1, 0, msg, [.head, .photo]⟩
        | .error _ => textSend msg [.head, .photo] textRes
      else textSend msg [.head] textRes
    | .error _ => textSend msg [.head] textRes
  else textSend msg [] textRes

/-- The publish loop of one `bot_worker` cycle (lines 290-299 of
`src/main.py`), with `is_running` held true throughout. `sendOk` is the
success of `send_news` for the given item. Returns the links for which
`send_news` was invoked, in order, and the updated `sent_news` store
(a list in insertion order; membership is set membership). -/
def publishLoop (sendOk : NewsItem → Bool) :
    List NewsItem → List String → List String × List String
  | [], sent => ([], sent)
  | item :: rest, sent =>
    if item.link ≠ "" ∧ item.link ∉ sent then
      let r := publishLoop sendOk rest
        (if sendOk item then sent ++ [item.link] else sent)
      (item.link :: r.1, r.2)
    else publishLoop sendOk rest sent

/-- Last `k` elements of a list, as the Python slice `l[-k:]` for `k ≥ 1`. -/
def takeLast (k : Nat) (l : List String) : List String :=
  l.drop (l.length - k)

/-- The assignment `sent_news = set(list(sent_news)[-MAX_HISTORY//2:])`.
`enum` is the (hash-order dependent, hence arbitrary) result of
`list(sent_news)`. In Python `-H//2` is `(-H)//2 = -⌈H/2⌉`, so for
`H ≥ 1` the slice keeps the last `⌈H/2⌉` elements; for `H = 0` the
slice is `[0:]`, which keeps everything. -/
def endOfCycleTrim (H : Nat) (enum : List String) : List String :=
  if H = 0 then enum else takeLast ((H + 1) / 2) enum

/-- The end-of-cycle eviction guard `if len(sent_news) > MAX_HISTORY`. -/
def endOfCycle (H : Nat) (sent enum : List String) : List String :=
  if sent.length > H then endOfCycleTrim H enum else sent

/-- Worker state: the in-memory `sent_news` store (insertion order) and
the persisted snapshot file. -/
structure WState where
  sentNews : List String
  fs : FileSys
deriving Repr, DecidableEq

/-- `load_history`: if `sent_news.txt` exists its lines replace the
in-memory set; otherwise the set is left as is. -/
def loadHistory (st : WState) : WState :=
  match st.fs.sentFile with
  | some lines => { st with sentNews := lines }
  | none => st

/-- `save_history`: rewrite the snapshot file from the in-memory set. -/
def saveHistory (st : WState) : WState :=
  { st with fs := { sentFile := some st.sentNews } }

/-- External inputs of one `bot_worker` cycle: the news list produced by
`get_news`, the per-item send outcome, and the set-enumeration order
used by `list(sent_news)` in the eviction step. -/
structure CycleIn where
  news : List NewsItem
  sendOk : NewsItem → Bool
  enum : List String → List String

/-- One `bot_worker` cycle: publish new items, trim the store if it
exceeds `MAX_HISTORY`, then `save_history()`. -/
def runCycle (H : Nat) (st : WState) (c : CycleIn) : WState :=
  let r := publishLoop c.sendOk c.news st.sentNews
  saveHistory { st with sentNews := endOfCycle H r.2 (c.enum r.2) }

/-- `bot_worker`: `load_history()` then the cycle loop. -/
def runWorker (H : Nat) (cycles : List CycleIn) (st : WState) : WState :=
  cycles.foldl (runCycle H) (loadHistory st)

/-- `stop_bot` (its effect on the store): `save_history()`. -/
def stopBot (st : WState) : WState := saveHistory st

/-- The `try/except ValueError` block reading `POST_DELAY`,
`CHECK_INTERVAL`, `MAX_HISTORY` (lines 23-30 of `src/main.py`). The
inputs are the raw environment values (`none` = variable unset, so
`os.getenv` yields the default string). The three `int()` conversions
run in sequence inside one `try`; any failure reaches the single
`except`, which assigns the literal defaults to all three names. -/
def loadParams (pd ci mh : Option String) : Int × Int × Int :=
  match pyInt (pd.getD ("10")), pyInt (ci.getD ("300")), pyInt (mh.getD ("100")) with
  | some a, some b, some c => (a, b, c)
  | _, _, _ => (10, 300, 100)

end MainPy

namespace MainnPy

/-- One feed entry as consumed by `BotController.rss_loop` and
`format_message` in `src/info_sender/mainn.py`; optional fields model
`hasattr` checks. -/
structure MEntry where
  link : Option String
  title : Option String
  description : Option String
deriving Repr, DecidableEq

/-- The validation condition of `format_message` (lines 587-589 of
`src/info_sender/mainn.py`), with Python truthiness of the two values:
a missing (`None`) or empty value short-circuits the conjunction. -/
def acceptEnhanced : Option String → Option String → Bool
  | some t, some d =>
    decide (t ≠ "" ∧ t.length > 10 ∧ d ≠ "" ∧ d.length > 30 ∧
      t.length < 120 ∧ d.length < 600)
  | _, _ => false

/-- The text-selection part of `format_message`: when the enhancer is
enabled and returned a payload, the rewritten pair replaces the
original iff the validation condition holds. `enhanced` is the return
value of `enhance_with_yagpt` (a dict whose two values may each be a
string or `None`), or `none` when that call returned `None` or raised. -/
def chooseText (enabled : Bool) (enhanced : Option (Option String × Option String))
    (title description : String) : String × String :=
  if enabled then
    match enhanced with
    | some (nt, nd) =>
      if acceptEnhanced nt nd then (nt.getD (""), nd.getD ("")) else (title, description)
    | none => (title, description)
  else (title, description)

/-- `format_message` from `src/info_sender/mainn.py`. `cleanHtml` stands
for the `re.sub` tag stripper, `enhance` for `enhance_with_yagpt`, and
`imageGen` for `image_generator.generate_image` (whose failures, and
the surrounding `try/except`, yield `none`). Returns the formatted
message and the optional generated image path. -/
def formatMessage (cleanHtml : String → String) (enabled : Bool)
    (enhance : String → String → Option (Option String × Option String))
    (imageGen : String → Option String) (e : MEntry) : String × Option String :=
  let clean := fun s => if s = "" then "" else cleanHtml s
  let title1 := clean (e.title.getD ("No title"))
  let description1 := clean (e.description.getD (""))
  let chosen := chooseText enabled (if enabled then enhance title1 description1 else none)
      title1 description1
  let description3 := if chosen.2.length > 500 then chosen.2.take 500 ++ "..." else chosen.2
  let imageTitle := if chosen.1 ≠ "" then chosen.1 else title1
  let imagePath := if imageTitle ≠ "" then imageGen imageTitle else none
  let message := "<b>" ++ chosen.1 ++ "</b>\n\n" ++ description3 ++
      "\n\n<a href=\x27" ++ e.link.getD ("") ++ "\x27>🔗 Читать полностью</a>"
  (message, imagePath)

/-- The sends `rss_loop` performs for one entry, in order. -/
inductive MSendEvent where
  | photo
  | text
deriving Repr, DecidableEq

/-- Observable outcome of the send block of `rss_loop` for one entry:
whether the entry was recorded as posted (`sent_entries.add` +
`posts_sent += 1` reached), the two counter increments, whether the
generated image file was removed, and the trace of send attempts. -/
structure SendOutcome where
  posted : Bool
  postsInc : Nat
  errorsInc : Nat
  deleted : Bool
  trace : List MSendEvent
deriving Repr, DecidableEq

/-- The per-entry send block of `rss_loop` (lines 509-547 of
`src/info_sender/mainn.py`). `hasImage` is the guard
`image_path and os.path.exists(image_path)`. With an image: the photo
send is attempted; on success `os.remove` runs; on an exception the
inner `except` sends the text-only message, leaving the file in place;
if that text send also raises, the per-entry `except` counts one error
and the entry is not recorded. Without an image only the text send
runs. -/
def sendEntry (hasImage : Bool) (photoRes textRes : Except Unit Unit) : SendOutcome :=
  if hasImage then
    match photoRes with
    | .ok _ => ⟨true, 1, 0, true, [.photo]⟩
    | .error _ =>
      match textRes with
      | .ok _ => ⟨true, 1, 0, false, [.photo, .text]⟩
      | .error _ => ⟨false, 0, 1, false, [.photo, .text]⟩
  else
    match textRes with
    | .ok _ => ⟨true, 1, 0, false, [.text]⟩
    | .error _ => ⟨false, 0, 1, false, [.text]⟩

/-- Result of processing the selected entries of one feed. -/
structure FeedOut where
  invocations : List String
  sent : List String
  posts : Nat
  errs : Nat
deriving Repr, DecidableEq

/-- The per-entry loop of `rss_loop` over one feed's selected entries
(`stop_event` never set). An entry without a `link`, or whose link is
already in `sent_entries`, is skipped; otherwise the send block runs
(`orc` gives its three external outcomes) and on success the link is
added to `sent_entries`. Returns the links for which a publish was
attempted, in order. -/
def feedLoop (orc : MEntry → Bool × Except Unit Unit × Except Unit Unit) :
    List MEntry → List String → FeedOut
  | [], sent => ⟨[], sent, 0, 0⟩
  | e :: rest, sent =>
    match e.link with
    | none => feedLoop orc rest sent
    | some l =>
      if l ∈ sent then feedLoop orc rest sent
      else
        let o := sendEntry (orc e).1 (orc e).2.1 (orc e).2.2
        let r := feedLoop orc rest (if o.posted then sent ++ [l] else sent)
        ⟨l :: r.invocations, r.sent, o.postsInc + r.posts, o.errorsInc + r.errs⟩

/-- The entry selection `reversed(feed.entries[:10])` of `rss_loop`. -/
def selectEntries (entries : List MEntry) : List MEntry :=
  (entries.take 10).reverse

/-- Processing of one feed in `rss_loop`: selection then the entry loop. -/
def processFeed (orc : MEntry → Bool × Except Unit Unit × Except Unit Unit)
    (entries : List MEntry) (sent : List String) : FeedOut :=
  feedLoop orc (selectEntries entries) sent

/-- Observable outcome of one whole `rss_loop` cycle. The single
`stats[errors]` counter is incremented at two syntactic sites; the two
contributions are reported separately: `errFeed` from the per-source
`except` (line 551) and `errSend` from the per-entry `except`
(line 547). `attempted` lists the URLs for which `feedparser.parse`
was invoked. -/
structure CycleOut where
  invocations : List String
  sent : List String
  posts : Nat
  errFeed : Nat
  errSend : Nat
  attempted : List String
deriving Repr, DecidableEq

/-- The per-URL loop of one `rss_loop` cycle. A fetch/parse failure of
one source is caught by its own `except`, counts one error, and the
loop continues with the next URL; an empty feed is skipped without an
error. -/
def mainnCycle (fetch : String → Except Unit (List MEntry))
    (orc : MEntry → Bool × Except Unit Unit × Except Unit Unit) :
    List String → List String → CycleOut
  | [], sent => ⟨[], sent, 0, 0, 0, []⟩
  | u :: rest, sent =>
    match fetch u with
    | .error _ =>
      let r := mainnCycle fetch orc rest sent
      ⟨r.invocations, r.sent, r.posts, r.errFeed + 1, r.errSend, u :: r.attempted⟩
    | .ok es =>
      let f := processFeed orc es sent
      let r := mainnCycle fetch orc rest f.sent
      ⟨f.invocations ++ r.invocations, r.sent, f.posts + r.posts,
        r.errFeed, f.errs + r.errSend, u :: r.attempted⟩

/-- `BotController` state relevant to the dedup-store claims: the
in-memory `sent_entries` set, the run flag, and the file system. The
controller code in `src/info_sender/mainn.py` performs no file I/O for
the dedup store, so every controller operation below carries `fs`
through unread and unchanged; this makes the absence of load/persist
steps a provable property of the model. -/
structure CState where
  sentEntries : List String
  isRunning : Bool
  fs : FileSys
deriving Repr, DecidableEq

/-- `BotController.start` (stats reset omitted): sets the run flag and
spawns the worker; `sent_entries` is not touched and nothing is read
from disk. -/
def controllerStart (s : CState) : CState :=
  if s.isRunning then s else { s with isRunning := true }

/-- `BotController.stop`: clears the run flag and joins the worker;
nothing is written to disk. -/
def controllerStop (s : CState) : CState :=
  if s.isRunning then { s with isRunning := false } else s

/-- A start / one-feed-cycle / stop run of the `mainn.py` controller. -/
def runMainn (s : CState) (entries : List MEntry)
    (orc : MEntry → Bool × Except Unit Unit × Except Unit Unit) : CState :=
  let s1 := controllerStart s
  let f := processFeed orc entries s1.sentEntries
  controllerStop { s1 with sentEntries := f.sent }

/-- The projection of a parsed JSON object to the two keys
`enhance_with_yagpt` reads. The outer `Option` is key presence, the
inner one distinguishes a string value from JSON `null`. -/
structure Payload where
  title : Option (Option String)
  description : Option (Option String)
deriving Repr, DecidableEq

/-- Python `str.find` for a single character: first index, or `-1`. -/
def pyFind (c : Char) (cs : List Char) : Int :=
  match cs.findIdx? (· = c) with
  | some i => Int.ofNat i
  | none => -1

/-- Python `str.rfind` for a single character: last index, or `-1`. -/
def pyRFind (c : Char) (cs : List Char) : Int :=
  match cs.reverse.findIdx? (· = c) with
  | some i => Int.ofNat cs.length - 1 - Int.ofNat i
  | none => -1

/-- The slice `result_text[json_start:json_end]` of `enhance_with_yagpt`. -/
def extractRegion (cs : List Char) : List Char :=
  (cs.take (pyRFind '\x7d' cs + 1).toNat).drop (pyFind '\x7b' cs).toNat

/-- The response-handling tail of `enhance_with_yagpt` (lines 409-425 of
`src/info_sender/mainn.py`): locate the first `\x7b` and last `\x7d`
of the response text, reject if either is absent, hand the slice to
`json.loads` (oracle `parse`; `none` is a `JSONDecodeError`), then
build the result dict with `data.get` defaulting each missing key to
the original input value. -/
def enhanceExtract (parse : String → Option Payload)
    (result_text title description : String) : Option (Option String × Option String) :=
  let cs := result_text.toList
  if pyFind '\x7b' cs = -1 ∨ pyRFind '\x7d' cs + 1 = 0 then none
  else
    match parse (String.mk (extractRegion cs)) with
    | none => none
    | some p => some (p.title.getD (some title), p.description.getD (some description))

end MainnPy

namespace MainPy

theorem publishLoop_invariant (sendOk : NewsItem → Bool) (news : List NewsItem) :
    ∀ (sent : List String) (l : String), l ∈ sent →
      l ∉ (publishLoop sendOk news sent).1 ∧ l ∈ (publishLoop sendOk news sent).2 := by
  induction news with
  | nil =>
    intro sent l hl
    exact ⟨List.not_mem_nil l, hl⟩
  | cons item rest ih =>
    intro sent l hl
    simp only [publishLoop]
    split
    case isTrue hc =>
      have hne : l ≠ item.link := fun e => hc.2 (e ▸ hl)
      have hl2 : l ∈ (if sendOk item then sent ++ [item.link] else sent) := by
        split
        · exact List.mem_append_left _ hl
        · exact hl
      have h2 := ih _ l hl2
      exact ⟨by simp [hne, h2.1], h2.2⟩
    case isFalse hc =>
      exact ih sent l hl

theorem publishLoop_inv_nonempty (sendOk : NewsItem → Bool) (news : List NewsItem) :
    ∀ (sent : List String) (l : String), l ∈ (publishLoop sendOk news sent).1 → l ≠ "" := by
  induction news with
  | nil =>
    intro sent l hl
    exact absurd hl (List.not_mem_nil l)
  | cons item rest ih =>
    intro sent l hl
    simp only [publishLoop] at hl
    split at hl
    case isTrue hc =>
      rcases List.mem_cons.mp hl with h | h
      · exact h ▸ hc.1
      · exact ih _ l h
    case isFalse hc =>
      exact ih sent l hl

theorem publishLoop_mem_source (sendOk : NewsItem → Bool) (news : List NewsItem) :
    ∀ (sent : List String) (l : String), l ∈ (publishLoop sendOk news sent).2 →
      l ∈ sent ∨ ∃ item, item ∈ news ∧ item.link = l ∧ sendOk item = true := by
  induction news with
  | nil =>
    intro sent l h
    exact Or.inl h
  | cons item rest ih =>
    intro sent l h
    simp only [publishLoop] at h
    split at h
    case isTrue hc =>
      rcases ih _ l h with hmem | ⟨it, hit, he, hok⟩
      · split at hmem
        case isTrue hs =>
          rcases List.mem_append.mp hmem with h2 | h2
          · exact Or.inl h2
          · refine Or.inr ⟨item, List.mem_cons_self item rest, ?_, hs⟩
            exact (List.mem_singleton.mp h2).symm
        case isFalse hs =>
          exact Or.inl hmem
      · exact Or.inr ⟨it, List.mem_cons_of_mem item hit, he, hok⟩
    case isFalse hc =>
      rcases ih sent l h with h2 | ⟨it, hit, he, hok⟩
      · exact Or.inl h2
      · exact Or.inr ⟨it, List.mem_cons_of_mem item hit, he, hok⟩

end MainPy

namespace MainnPy

theorem feedLoop_invariant (orc : MEntry → Bool × Except Unit Unit × Except Unit Unit)
    (es : List MEntry) :
    ∀ (sent : List String) (l : String), l ∈ sent →
      l ∉ (feedLoop orc es sent).invocations ∧ l ∈ (feedLoop orc es sent).sent := by
  induction es with
  | nil =>
    intro sent l hl
    exact ⟨List.not_mem_nil l, hl⟩
  | cons e rest ih =>
    intro sent l hl
    cases he : e.link with
    | none =>
      simp only [feedLoop, he]
      exact ih sent l hl
    | some k =>
      simp only [feedLoop, he]
      split
      case isTrue hk =>
        exact ih sent l hl
      case isFalse hk =>
        have hne : l ≠ k := fun e2 => hk (e2 ▸ hl)
        have hl2 : l ∈ (if (sendEntry (orc e).1 (orc e).2.1 (orc e).2.2).posted
            then sent ++ [k] else sent) := by
          split
          · exact List.mem_append_left _ hl
          · exact hl
        have h2 := ih _ l hl2
        exact ⟨by simp [hne, h2.1], h2.2⟩

theorem feedLoop_mem_source (orc : MEntry → Bool × Except Unit Unit × Except Unit Unit)
    (es : List MEntry) :
    ∀ (sent : List String) (l : String), l ∈ (feedLoop orc es sent).sent →
      l ∈ sent ∨ ∃ e, e ∈ es ∧ e.link = some l ∧
        (sendEntry (orc e).1 (orc e).2.1 (orc e).2.2).posted = true := by
  induction es with
  | nil =>
    intro sent l h
    exact Or.inl h
  | cons e rest ih =>
    intro sent l h
    cases he : e.link with
    | none =>
      simp only [feedLoop, he] at h
      rcases ih sent l h with h2 | ⟨it, hit, h3, hok⟩
      · exact Or.inl h2
      · exact Or.inr ⟨it, List.mem_cons_of_mem e hit, h3, hok⟩
    | some k =>
      simp only [feedLoop, he] at h
      split at h
      case isTrue hk =>
        rcases ih sent l h with h2 | ⟨it, hit, h3, hok⟩
        · exact Or.inl h2
        · exact Or.inr ⟨it, List.mem_cons_of_mem e hit, h3, hok⟩
      case isFalse hk =>
        rcases ih _ l h with hmem | ⟨it, hit, h3, hok⟩
        · split at hmem
          case isTrue hs =>
            rcases List.mem_append.mp hmem with h2 | h2
            · exact Or.inl h2
            · refine Or.inr ⟨e, List.mem_cons_self e rest, ?_, hs⟩
              rw [he]
              exact congrArg some (List.mem_singleton.mp h2).symm
          case isFalse hs =>
            exact Or.inl hmem
        · exact Or.inr ⟨it, List.mem_cons_of_mem e hit, h3, hok⟩

theorem feedLoop_inv_sublist (orc : MEntry → Bool × Except Unit Unit × Except Unit Unit)
    (es : List MEntry) :
    ∀ (sent : List String),
      (feedLoop orc es sent).invocations.Sublist (es.filterMap MEntry.link) := by
  induction es with
  | nil =>
    intro sent
    simp [feedLoop]
  | cons e rest ih =>
    intro sent
    cases he : e.link with
    | none =>
      simp only [feedLoop, he, List.filterMap_cons_none he]
      exact ih sent
    | some k =>
      simp only [feedLoop, he, List.filterMap_cons, he]
      split
      case isTrue hk =>
        exact (ih sent).cons k
      case isFalse hk =>
        exact (ih _).cons₂ k

end MainnPy

/-- Claim C1: an entry whose id is already in the dedup set is never
published again. In both variants: if a link is in the store before the
publish loop runs, `publish` is not invoked for it in that loop and it
stays in the store afterwards (so the same holds in every later cycle);
additionally, in `main.py` every invoked link is non-empty. -/
theorem dedup_no_republish :
    (∀ (sendOk : MainPy.NewsItem → Bool) (news : List MainPy.NewsItem)
        (sent : List String) (l : String), l ∈ sent →
        l ∉ (MainPy.publishLoop sendOk news sent).1 ∧
          l ∈ (MainPy.publishLoop sendOk news sent).2)
    ∧ (∀ (sendOk : MainPy.NewsItem → Bool) (news : List MainPy.NewsItem)
        (sent : List String) (l : String),
        l ∈ (MainPy.publishLoop sendOk news sent).1 → l ≠ "")
    ∧ (∀ (orc : MainnPy.MEntry → Bool × Except Unit Unit × Except Unit Unit)
        (es : List MainnPy.MEntry) (sent : List String) (l : String), l ∈ sent →
        l ∉ (MainnPy.feedLoop orc es sent).invocations ∧
          l ∈ (MainnPy.feedLoop orc es sent).sent) :=
  ⟨fun sendOk news => MainPy.publishLoop_invariant sendOk news,
   fun sendOk news => MainPy.publishLoop_inv_nonempty sendOk news,
   fun orc es => MainnPy.feedLoop_invariant orc es⟩

/-- Witness for C1 at a concrete input: a link already in the store is
not re-published by a cycle that sees it again. -/
theorem dedup_no_republish_witness :
    ("x" ∉ (MainPy.publishLoop (fun _ => true)
        [{ title := "t", link := "x", summary := "s", image := none }] ["x"]).1
      ∧ "x" ∈ (MainPy.publishLoop (fun _ => true)
        [{ title := "t", link := "x", summary := "s", image := none }] ["x"]).2)
    ∧ ("y" ∉ (MainnPy.feedLoop (fun _ => (false, Except.ok (), Except.ok ()))
        [{ link := some ("y"), title := none, description := none }] ["y"]).invocations
      ∧ "y" ∈ (MainnPy.feedLoop (fun _ => (false, Except.ok (), Except.ok ()))
        [{ link := some ("y"), title := none, description := none }] ["y"]).sent) :=
  ⟨dedup_no_republish.1 (fun _ => true)
      [{ title := "t", link := "x", summary := "s", image := none }] ["x"] "x"
      (by decide),
   dedup_no_republish.2.2 (fun _ => (false, Except.ok (), Except.ok ()))
      [{ link := some ("y"), title := none, description := none }] ["y"] "y"
      (by decide)⟩

/-- Counterexample for C2 as stated: the eviction
`set(list(sent_news)[-MAX_HISTORY//2:])` slices an arbitrary
enumeration of the Python set, not the insertion order. With store
`a, b, c` inserted in that order, `H = 2`, and the (valid) enumeration
`b, c, a`, the retained id is `a` — not the most-recently-inserted `c`. -/
theorem dedup_eviction_not_lru_counterexample :
    List.Perm ["b", "c", "a"] ["a", "b", "c"] ∧
      MainPy.endOfCycle 2 ["a", "b", "c"] ["b", "c", "a"] ≠
        MainPy.takeLast ((2 + 1) / 2) ["a", "b", "c"] := by
  constructor
  · decide
  · decide

/-- Claim C2 (amended): at the end of a cycle the store size never
exceeds `H` (for `H ≥ 1`), and whenever the eviction triggers it
reduces the size to at most `⌈H/2⌉`; the retained ids are a slice of an
arbitrary set enumeration, not necessarily the most-recently-inserted
ones. -/
theorem dedup_eviction_bound (H : Nat) (sent enum : List String) (hH : 1 ≤ H) :
    (MainPy.endOfCycle H sent enum).length ≤ H ∧
      (sent.length > H → (MainPy.endOfCycle H sent enum).length ≤ (H + 1) / 2) := by
  unfold MainPy.endOfCycle MainPy.endOfCycleTrim MainPy.takeLast
  by_cases hl : sent.length > H
  · have hH0 : ¬ H = 0 := by omega
    simp only [if_pos hl, if_neg hH0, List.length_drop]
    omega
  · simp only [if_neg hl]
    exact ⟨Nat.le_of_not_lt hl, fun h => absurd h hl⟩

/-- Witness for C2 (amended) at a concrete input. -/
theorem dedup_eviction_bound_witness :
    (MainPy.endOfCycle 2 ["a", "b", "c"] ["b", "c", "a"]).length ≤ 2 ∧
      (["a", "b", "c"].length > 2 →
        (MainPy.endOfCycle 2 ["a", "b", "c"] ["b", "c", "a"]).length ≤ (2 + 1) / 2) :=
  dedup_eviction_bound 2 ["a", "b", "c"] ["b", "c", "a"] (by decide)

/-- Counterexample for C3 as stated: the `mainn.py` controller keeps the
dedup store in memory only. Starting it with a persisted snapshot
containing `a` does not load `a` into the store, and after a
start / cycle (publishing `b`) / stop run the snapshot still lacks `b`. -/
theorem lifecycle_mainn_no_persistence_counterexample :
    ("a" ∉ (MainnPy.controllerStart ⟨[], false, ⟨some ["a"]⟩⟩).sentEntries)
    ∧ ((MainnPy.runMainn ⟨[], false, ⟨some ["a"]⟩⟩
          [{ link := some ("b"), title := none, description := none }]
          (fun _ => (false, Except.ok (), Except.ok ()))).sentEntries = ["b"])
    ∧ ((MainnPy.runMainn ⟨[], false, ⟨some ["a"]⟩⟩
          [{ link := some ("b"), title := none, description := none }]
          (fun _ => (false, Except.ok (), Except.ok ()))).fs.sentFile = some ["a"]) := by
  refine ⟨by decide, by decide, by decide⟩

/-- Claim C3 (amended): in the `main.py` variant the store is loaded
from the persisted snapshot at worker start, an id enters the store
only when it was already there or its publish succeeded (in both
variants), the store is persisted at the end of every cycle, and stop
persists it again. -/
theorem lifecycle_mainpy :
    (∀ (lines : List String) (st : MainPy.WState), st.fs.sentFile = some lines →
        (MainPy.loadHistory st).sentNews = lines)
    ∧ (∀ (sendOk : MainPy.NewsItem → Bool) (news : List MainPy.NewsItem)
        (sent : List String) (l : String), l ∈ (MainPy.publishLoop sendOk news sent).2 →
        l ∈ sent ∨ ∃ item, item ∈ news ∧ item.link = l ∧ sendOk item = true)
    ∧ (∀ (orc : MainnPy.MEntry → Bool × Except Unit Unit × Except Unit Unit)
        (es : List MainnPy.MEntry) (sent : List String) (l : String),
        l ∈ (MainnPy.feedLoop orc es sent).sent →
        l ∈ sent ∨ ∃ e, e ∈ es ∧ e.link = some l ∧
          (MainnPy.sendEntry (orc e).1 (orc e).2.1 (orc e).2.2).posted = true)
    ∧ (∀ (H : Nat) (st : MainPy.WState) (c : MainPy.CycleIn),
        (MainPy.runCycle H st c).fs.sentFile = some (MainPy.runCycle H st c).sentNews)
    ∧ (∀ st : MainPy.WState, (MainPy.stopBot st).fs.sentFile = some st.sentNews) := by
  refine ⟨?_, fun sendOk news => MainPy.publishLoop_mem_source sendOk news,
    fun orc es => MainnPy.feedLoop_mem_source orc es, ?_, ?_⟩
  · intro lines st h
    simp [MainPy.loadHistory, h]
  · intro H st c
    rfl
  · intro st
    rfl

/-- Witness for C3 (amended) at concrete inputs. -/
theorem lifecycle_mainpy_witness :
    ((MainPy.loadHistory ⟨[], ⟨some ["a"]⟩⟩).sentNews = ["a"])
    ∧ ("b" ∈ ([] : List String) ∨ ∃ item,
        item ∈ [({ title := "t", link := "b", summary := "s", image := none } : MainPy.NewsItem)]
          ∧ item.link = "b" ∧ (fun _ => true) item = true)
    ∧ ((MainPy.runCycle 100 ⟨[], ⟨none⟩⟩ ⟨[], fun _ => true, id⟩).fs.sentFile
        = some (MainPy.runCycle 100 ⟨[], ⟨none⟩⟩ ⟨[], fun _ => true, id⟩).sentNews)
    ∧ ((MainPy.stopBot ⟨["b"], ⟨none⟩⟩).fs.sentFile = some ["b"]) :=
  ⟨lifecycle_mainpy.1 ["a"] ⟨[], ⟨some ["a"]⟩⟩ rfl,
   lifecycle_mainpy.2.1 (fun _ => true)
      [{ title := "t", link := "b", summary := "s", image := none }] [] "b" (by decide),
   lifecycle_mainpy.2.2.2.1 100 ⟨[], ⟨none⟩⟩ ⟨[], fun _ => true, id⟩,
   lifecycle_mainpy.2.2.2.2 ⟨["b"], ⟨none⟩⟩⟩

/-- Claim C4: per-source failures are isolated. In both variants the
set of sources actually fetched in a cycle is exactly the configured
list (all non-blank URLs in `main.py`, all URLs in `mainn.py`),
independent of which fetches fail, and the per-source error-counter
increments equal the number of failing sources. -/
theorem source_failure_isolation :
    (∀ (cleanHtml : String → String) (now : Int)
        (fetch : String → Except Unit (List MainPy.FeedEntry)) (urls : List String),
        (MainPy.getNews cleanHtml now fetch urls).attempted
            = (urls.filter (fun u => u.trim != "")).map (fun u => u.trim)
        ∧ (MainPy.getNews cleanHtml now fetch urls).errors
            = urls.countP (fun u => (u.trim != "") && isErr (fetch u.trim)))
    ∧ (∀ (fetch : String → Except Unit (List MainnPy.MEntry))
        (orc : MainnPy.MEntry → Bool × Except Unit Unit × Except Unit Unit)
        (urls sent : List String),
        (MainnPy.mainnCycle fetch orc urls sent).attempted = urls
        ∧ (MainnPy.mainnCycle fetch orc urls sent).errFeed
            = urls.countP (fun u => isErr (fetch u))) := by
  constructor
  · intro cleanHtml now fetch urls
    induction urls with
    | nil => exact ⟨rfl, rfl⟩
    | cons u rest ih =>
      by_cases h : u.trim = ""
      · simp [MainPy.getNews, h, List.filter_cons, List.countP_cons, ih.1, ih.2]
      · cases hf : fetch u.trim with
        | ok es =>
          simp [MainPy.getNews, h, hf, isErr, List.filter_cons, List.countP_cons,
            ih.1, ih.2]
        | error e =>
          simp [MainPy.getNews, h, hf, isErr, List.filter_cons, List.countP_cons,
            ih.1, ih.2]
  · intro fetch orc urls sent
    induction urls generalizing sent with
    | nil => exact ⟨rfl, rfl⟩
    | cons u rest ih =>
      cases hf : fetch u with
      | ok es =>
        simp [MainnPy.mainnCycle, hf, isErr, List.countP_cons, (ih _).1, (ih _).2]
      | error e =>
        simp [MainnPy.mainnCycle, hf, isErr, List.countP_cons, (ih _).1, (ih _).2]

/-- Claim C5: for an entry with an image, the photo send is attempted
first; when it fails, the text-only send runs exactly once in the same
publish call, and a successful fallback counts as a success (one
`posts_sent` increment, no error). Stated for both variants; in
`main.py` the availability check (`requests.head`) returned 200, so the
photo send itself was attempted and raised. -/
theorem photo_fallback_text_once :
    (∀ (item : MainPy.NewsItem) (textRes : Except Unit Unit),
        pyTruthy item.image = true →
        (MainPy.sendNews item (Except.ok 200) (Except.error ()) textRes).trace
            = [MainPy.SendEvent.head, MainPy.SendEvent.photo, MainPy.SendEvent.text]
        ∧ (MainPy.sendNews item (Except.ok 200) (Except.error ()) (Except.ok ())).success = true
        ∧ (MainPy.sendNews item (Except.ok 200) (Except.error ()) (Except.ok ())).postsInc = 1
        ∧ (MainPy.sendNews item (Except.ok 200) (Except.error ()) (Except.ok ())).errorsInc = 0)
    ∧ (∀ textRes : Except Unit Unit,
        (MainnPy.sendEntry true (Except.error ()) textRes).trace
            = [MainnPy.MSendEvent.photo, MainnPy.MSendEvent.text]
        ∧ (MainnPy.sendEntry true (Except.error ()) (Except.ok ())).posted = true
        ∧ (MainnPy.sendEntry true (Except.error ()) (Except.ok ())).postsInc = 1
        ∧ (MainnPy.sendEntry true (Except.error ()) (Except.ok ())).errorsInc = 0) := by
  constructor
  · intro item textRes h
    refine ⟨?_, ?_, ?_, ?_⟩ <;>
      cases textRes <;> simp [MainPy.sendNews, MainPy.textSend, h]
  · intro textRes
    cases textRes <;> exact ⟨rfl, rfl, rfl, rfl⟩

/-- Witness for C5 at a concrete input. -/
theorem photo_fallback_text_once_witness :
    (MainPy.sendNews { title := "t", link := "l", summary := "s", image := some ("i.jpg") }
        (Except.ok 200) (Except.error ()) (Except.ok ())).trace
        = [MainPy.SendEvent.head, MainPy.SendEvent.photo, MainPy.SendEvent.text]
    ∧ (MainPy.sendNews { title := "t", link := "l", summary := "s", image := some ("i.jpg") }
        (Except.ok 200) (Except.error ()) (Except.ok ())).success = true
    ∧ (MainPy.sendNews { title := "t", link := "l", summary := "s", image := some ("i.jpg") }
        (Except.ok 200) (Except.error ()) (Except.ok ())).postsInc = 1
    ∧ (MainPy.sendNews { title := "t", link := "l", summary := "s", image := some ("i.jpg") }
        (Except.ok 200) (Except.error ()) (Except.ok ())).errorsInc = 0 :=
  photo_fallback_text_once.1
    { title := "t", link := "l", summary := "s", image := some ("i.jpg") }
    (Except.ok ()) (by decide)

/-- Counterexample for C6 as stated: in `main.py` a feed with 11 fresh
entries yields 11 publish invocations in one cycle (no cap of 10), and
a two-entry feed is processed in feed order, not reversed. -/
theorem mainpy_inspects_all_entries_counterexample :
    ((MainPy.publishLoop (fun _ => true)
        (MainPy.processFeedMain id 0 ((List.range 11).map (fun i =>
          { title := none, link := some (toString i), description := none,
            published := some 0, media := [], enclosures := [] }))) []).1).length = 11
    ∧ (MainPy.publishLoop (fun _ => true)
        (MainPy.processFeedMain id 0
          [{ title := none, link := some ("a0"), description := none,
             published := some 0, media := [], enclosures := [] },
           { title := none, link := some ("a1"), description := none,
             published := some 0, media := [], enclosures := [] }]) []).1
        = ["a0", "a1"] := by
  constructor
  · decide
  · decide

/-- Claim C6 (amended): in the `mainn.py` variant, per feed and per
cycle only the first 10 entries of the feed list are inspected and
they are processed in reverse (oldest-first): the publish invocations
form a sublist of the links of `reversed(entries[:10])`, hence at most
10. (The `main.py` variant inspects every entry in feed order.) -/
theorem mainn_feed_cap_and_order
    (orc : MainnPy.MEntry → Bool × Except Unit Unit × Except Unit Unit)
    (entries : List MainnPy.MEntry) (sent : List String) :
    (MainnPy.processFeed orc entries sent).invocations.Sublist
        ((entries.take 10).reverse.filterMap MainnPy.MEntry.link)
    ∧ (MainnPy.processFeed orc entries sent).invocations.length ≤ 10 := by
  have h := MainnPy.feedLoop_inv_sublist orc ((entries.take 10).reverse) sent
  refine ⟨h, ?_⟩
  have h1 := h.length_le
  have h2 : ((entries.take 10).reverse.filterMap MainnPy.MEntry.link).length
      ≤ (entries.take 10).reverse.length := List.length_filterMap_le _ _
  have h3 : (entries.take 10).reverse.length ≤ 10 := by
    rw [List.length_reverse]
    exact List.length_take_le 10 entries
  have h4 : (MainnPy.processFeed orc entries sent).invocations.length
      = (MainnPy.feedLoop orc ((entries.take 10).reverse) sent).invocations.length := rfl
  omega

/-- Claim C7: the rewritten text replaces the original iff the rewritten
title length lies strictly between 10 and 120 and the rewritten body
length strictly between 30 and 600; otherwise (including a `None` value
for either field) the original pair is used. -/
theorem enhancement_validation_bounds (t d nt nd : String) :
    MainnPy.chooseText true (some (some nt, some nd)) t d
      = (if 10 < nt.length ∧ nt.length < 120 ∧ 30 < nd.length ∧ nd.length < 600
          then (nt, nd) else (t, d))
    ∧ (∀ o : Option String, MainnPy.chooseText true (some (none, o)) t d = (t, d))
    ∧ (∀ o : Option String, MainnPy.chooseText true (some (o, none)) t d = (t, d)) := by
  have hiff : (nt ≠ "" ∧ nt.length > 10 ∧ nd ≠ "" ∧ nd.length > 30 ∧
      nt.length < 120 ∧ nd.length < 600)
      ↔ (10 < nt.length ∧ nt.length < 120 ∧ 30 < nd.length ∧ nd.length < 600) := by
    constructor
    · rintro ⟨_, a, _, b, c, d2⟩
      exact ⟨a, c, b, d2⟩
    · rintro ⟨a, b, c, d2⟩
      refine ⟨?_, a, ?_, c, b, d2⟩
      · intro e
        rw [e] at a
        exact absurd a (by decide)
      · intro e
        rw [e] at c
        exact absurd c (by decide)
  refine ⟨?_, fun o => ?_, fun o => ?_⟩
  · show (if MainnPy.acceptEnhanced (some nt) (some nd) = true
        then ((some nt).getD (""), (some nd).getD ("")) else (t, d)) = _
    simp only [MainnPy.acceptEnhanced, decide_eq_true_eq, Option.getD_some]
    exact if_congr hiff rfl rfl
  · cases o <;> rfl
  · cases o <;> rfl

/-- Counterexample for C8 as stated: when the photo send fails and the
text fallback succeeds, the entry is published but the generated image
file is not deleted (`os.remove` is only reached after a successful
`send_photo`). -/
theorem image_not_deleted_on_photo_failure_counterexample :
    (MainnPy.sendEntry true (Except.error ()) (Except.ok ())).posted = true
    ∧ (MainnPy.sendEntry true (Except.error ()) (Except.ok ())).deleted = false :=
  ⟨rfl, rfl⟩

/-- Claim C8 (amended): the generated image file is deleted iff the
entry had an image and the photo send succeeded; on a photo-send
failure (including a successful text fallback) the file is left on
disk. -/
theorem image_deleted_iff_photo_ok (hasImage : Bool) (photoRes textRes : Except Unit Unit) :
    (MainnPy.sendEntry hasImage photoRes textRes).deleted = true
      ↔ (hasImage = true ∧ photoRes = Except.ok ()) := by
  rcases photoRes with u | u <;> rcases textRes with v | v <;> cases u <;> cases v <;>
    cases hasImage <;> simp [MainnPy.sendEntry]

/-- Claim C9: if any of `POST_DELAY`, `CHECK_INTERVAL`, `MAX_HISTORY`
holds a non-integer string, the single `except ValueError` resets all
three parameters to the defaults `(10, 300, 100)`, including the ones
whose values parsed. -/
theorem config_defaults_reset_all (pd ci mh : Option String)
    (h : pyInt (pd.getD ("10")) = none ∨ pyInt (ci.getD ("300")) = none ∨
      pyInt (mh.getD ("100")) = none) :
    MainPy.loadParams pd ci mh = (10, 300, 100) := by
  unfold MainPy.loadParams
  cases h1 : pyInt (pd.getD ("10")) <;> cases h2 : pyInt (ci.getD ("300")) <;>
    cases h3 : pyInt (mh.getD ("100")) <;> simp_all

/-- Witness for C9: `POST_DELAY=5` is a valid integer, but because
`CHECK_INTERVAL=abc` fails to parse, all three values become defaults. -/
theorem config_defaults_reset_all_witness :
    pyInt ("5") = some 5 ∧
      MainPy.loadParams (some ("5")) (some ("abc")) none = (10, 300, 100) :=
  ⟨by decide, config_defaults_reset_all (some ("5")) (some ("abc")) none
    (Or.inr (Or.inl (by decide)))⟩

/-- Claim C10: when the enhancer response contains a brace-delimited
region that parses as JSON but lacks the `title` key, the response is
not rejected: `data.get` silently fills the missing field with the
original input value and the partial payload is returned as if
enhanced. -/
theorem enhancer_partial_payload_filled
    (parse : String → Option MainnPy.Payload) (text t d : String) (p : MainnPy.Payload)
    (h1 : MainnPy.pyFind '\x7b' text.toList ≠ -1)
    (h2 : MainnPy.pyRFind '\x7d' text.toList ≠ -1)
    (hp : parse (String.mk (MainnPy.extractRegion text.toList)) = some p)
    (ht : p.title = none) :
    MainnPy.enhanceExtract parse text t d
      = some (some t, p.description.getD (some d)) := by
  have h2a : ¬ (MainnPy.pyRFind '\x7d' text.toList + 1 = 0) := by omega
  simp only [String.toList] at h1 h2a hp
  simp [MainnPy.enhanceExtract, h1, h2a, hp, ht]

/-- Witness for C10: a response whose JSON region parses to an object
with only a `description` key yields the original title paired with
the parsed description. -/
theorem enhancer_partial_payload_filled_witness :
    MainnPy.enhanceExtract
        (fun s => if s = "\x7b\x7d"
          then some { title := none, description := some (some ("D")) } else none)
        "\x7b\x7d" "T" "DD"
      = some (some ("T"), some ("D")) :=
  enhancer_partial_payload_filled
    (fun s => if s = "\x7b\x7d"
      then some { title := none, description := some (some ("D")) } else none)
    "\x7b\x7d" "T" "DD" { title := none, description := some (some ("D")) }
    (by decide) (by decide) (by decide) rfl

end InfoSender
